import Mathlib

/-!
# todo_cli: the task list of `todo.go`, its persistence and its command line

A shallow embedding of `todo.go`, `colors.go` and `cmd/todo/main.go`.

* Go methods on `*List` mutate the receiver and return an `error`; here each
  takes the list and returns the list afterwards together with the error
  (`none` is Go's `nil`).
* Go's `int` is 64 bits wide.  The only arithmetic on it is `index - 1` under
  the guard `index > 0`, `i + 1` on a slice position and a count bounded by a
  slice length, so no operation can wrap and `Int` is used without reduction.
  The positions of the command line pass through `flag.Parse()`, which accepts
  only values of that width: the parsed flags hold a `GoInt`.
* `time.Now()` is an input of the operation that calls it.
* `encoding/json`, `os.ReadFile`/`os.WriteFile` and `time.Time.Format` are
  library code: the codec and the time layout are parameters, the file
  system is a small explicit state.
-/

namespace TodoCli

/-! ## Data model (`todo.go`, lines 14-23) -/

/-- Go's `time.Time` as an instant: whole seconds and nanoseconds since the
zero time.  The zero value of the Go type is the instant `0, 0`. -/
structure Time where
  sec : Int
  nsec : Nat
deriving DecidableEq

/-- The zero value of `time.Time`. -/
def Time.zero : Time := ⟨0, 0⟩

/-- The struct `item` of `todo.go`. -/
structure item where
  Task : String
  Done : Bool
  CreatedAt : Time
  CompletedAt : Time
deriving DecidableEq

/-- The type `List` of `todo.go` (`type List []item`). -/
abbrev TodoList := List item

/-- Go's `error`: `none` is `nil`, `some msg` an error with that message. -/
abbrev error := Option String

/-! ## Mutations (`todo.go`, lines 25-59) -/

/-- `func (l *List) AddTask(task string)`; `now` is the value of `time.Now()`.
The struct literal leaves `Done` and `CompletedAt` at their zero values. -/
def AddTask (now : Time) (l : TodoList) (task : String) : TodoList :=
  let item : item := { Task := task, Done := false, CreatedAt := now, CompletedAt := Time.zero }
  l ++ [item]

/-- `func (l *List) CompleteTask(index int) error`; `now` is `time.Now()`.
`ls := *l` shares the backing array with `*l`, so the two field writes through
`ls[index-1]` are writes to the receiver's list. -/
def CompleteTask (now : Time) (l : TodoList) (index : Int) : TodoList × error :=
  if index ≤ 0 ∨ index > (l.length : Int) then
    (l, some "invalid index")
  else
    (List.modify (fun it => { it with Done := true, CompletedAt := now }) (index - 1).toNat l, none)

/-- `func (l *List) DeleteTask(index int) error`:
`*l = append(ls[:index-1], ls[index:]...)`. -/
def DeleteTask (l : TodoList) (index : Int) : TodoList × error :=
  if index ≤ 0 ∨ index > (l.length : Int) then
    (l, some "invalid index")
  else
    (l.take (index - 1).toNat ++ l.drop index.toNat, none)

/-! ## Queries (`todo.go`, lines 101-137) -/

/-- `func (l *List) ListTasks() List`. -/
def ListTasks (l : TodoList) : TodoList := l

/-- `func (l *List) ListCompletedTasks() List`: the `range` loop appending
every item with `Done` to `completed`. -/
def ListCompletedTasks (l : TodoList) : TodoList :=
  l.foldl (fun completed item => if item.Done then completed ++ [item] else completed) []

/-- `func (l *List) ListPendingTasks() List`. -/
def ListPendingTasks (l : TodoList) : TodoList :=
  l.foldl (fun pending item => if !item.Done then pending ++ [item] else pending) []

/-- `func (l *List) CountPendingTasks() int`. -/
def CountPendingTasks (l : TodoList) : Int :=
  l.foldl (fun count item => if !item.Done then count + 1 else count) 0

/-! ## Observing a list by 1-based position -/

/-- The task at 1-based position `p` (the element `ls[p-1]` that
`CompleteTask` and `DeleteTask` address), `none` outside `1..len`. -/
def taskAt (l : TodoList) (p : Int) : Option item :=
  if p ≤ 0 then none else l[(p - 1).toNat]?

/-! ## Sequences of operations -/

/-- One mutation of the list, with the clock reading it observes. -/
inductive Op where
  | add (task : String) (now : Time)
  | complete (index : Int) (now : Time)
  | delete (index : Int)
deriving DecidableEq

/-- The list after one operation (a failed operation leaves it as it was). -/
def applyOp (l : TodoList) : Op → TodoList
  | .add task now => AddTask now l task
  | .complete index now => (CompleteTask now l index).1
  | .delete index => (DeleteTask l index).1

/-- The list reached from the empty list by a sequence of operations. -/
def runOps (ops : List Op) : TodoList := ops.foldl applyOp []

/-! ## Colours (`colors.go`) -/

def ColorDefault : String := "\x1b[0m"
def ColorRed : String := "\x1b[31m"
def ColorGreen : String := "\x1b[32m"
def ColorYellow : String := "\x1b[33m"
def ColorBlue : String := "\x1b[34m"
def ColorMagenta : String := "\x1b[35m"
def ColorCyan : String := "\x1b[36m"

/-- `func Colorize(color, text string) string`:
`fmt.Sprintf("%s%s%s", color, text, ColorDefault)`. -/
def Colorize (color text : String) : String := color ++ text ++ ColorDefault

def red (text : String) : String := Colorize ColorRed text
def green (text : String) : String := Colorize ColorGreen text
def yellow (text : String) : String := Colorize ColorYellow text
def blue (text : String) : String := Colorize ColorBlue text
def magenta (text : String) : String := Colorize ColorMagenta text
def cyan (text : String) : String := Colorize ColorCyan text

/-! ## The table (`todo.go`, lines 139-185) -/

/-- `strconv.Itoa`: the decimal text of an `int`. -/
def Itoa (i : Int) : String := toString i

/-- The alignment constants of `simpletable`; `AlignLeft` is the zero value. -/
inductive Align where
  | AlignLeft
  | AlignCenter
  | AlignRight
deriving DecidableEq

/-- A `simpletable.Cell`. -/
structure Cell where
  Align : Align
  Span : Int
  Text : String
deriving DecidableEq

/-- A `simpletable.Table`: header cells, body rows, footer cells. -/
structure Table where
  Header : List Cell
  Body : List (List Cell)
  Footer : List Cell
deriving DecidableEq

/-- The row that the loop body of `PrintTable` appends for the loop variables
`i` (the 0-based `range` position) and `item`.  The body first runs `i++` and
then renders `strconv.Itoa(i + 1)`.  `layout` is
`Time.Format("2006-01-02 15:04:05")`. -/
def tableRow (layout : Time → String) (i : Int) (item : item) : List Cell :=
  let i := i + 1
  let task := if item.Done then green ("✓ " ++ item.Task) else blue item.Task
  [ { Align := .AlignRight, Span := 0, Text := yellow (Itoa (i + 1)) },
    { Align := .AlignLeft, Span := 0, Text := task },
    { Align := .AlignLeft, Span := 0,
      Text := if item.Done then green "Completed" else red "Pending" },
    { Align := .AlignLeft, Span := 0, Text := magenta (layout item.CreatedAt) },
    { Align := .AlignLeft, Span := 0, Text := magenta (layout item.CompletedAt) } ]

/-- `func (l *List) PrintTable()`: the table handed to `table.Println()`. -/
def PrintTable (layout : Time → String) (l : TodoList) : Table :=
  let cells : List (List Cell) :=
    l.enum.foldl (fun cells x => cells ++ [tableRow layout (x.1 : Int) x.2]) []
  { Header :=
      [ { Align := .AlignCenter, Span := 0, Text := yellow "#" },
        { Align := .AlignCenter, Span := 0, Text := cyan "Task" },
        { Align := .AlignCenter, Span := 0, Text := cyan "Status" },
        { Align := .AlignCenter, Span := 0, Text := cyan "Created At" },
        { Align := .AlignCenter, Span := 0, Text := cyan "Completed At" } ],
    Body := cells,
    Footer :=
      [ { Align := .AlignRight, Span := 5,
          Text := red ("You have " ++ Itoa (CountPendingTasks l) ++ " pending tasks") } ] }

/-- The text of the task-number cell (first column) of the body row that
`PrintTable` renders for the task at 1-based position `p`. -/
def numberCell (t : Table) (p : Int) : Option String :=
  if p ≤ 0 then none
  else
    match t.Body[(p - 1).toNat]? with
    | some (c :: _) => some c.Text
    | _ => none

/-! ## Persistence (`todo.go`, lines 61-99) -/

/-- An error of `os.ReadFile`: whether `errors.Is(err, os.ErrNotExist)` holds,
and its message. -/
structure PathError where
  IsNotExist : Bool
  msg : String
deriving DecidableEq

/-- The two `os` calls of `todo.go` as seen by the program: what `ReadFile`
returns for a name, and the error (or `nil`) `WriteFile` returns. -/
structure OS where
  ReadFile : String → Except PathError (List UInt8)
  WriteFile : String → List UInt8 → error

/-- The two `encoding/json` calls of `todo.go`.  `Unmarshal` decodes into the
list it is given and returns that list afterwards with the error. -/
structure JSON where
  MarshalIndent : TodoList → Except String (List UInt8)
  Unmarshal : List UInt8 → TodoList → TodoList × error

/-- `func (l *List) Load(filename string) error`. -/
def Load (os : OS) (json : JSON) (l : TodoList) (filename : String) : TodoList × error :=
  match os.ReadFile filename with
  | .error err =>
    if err.IsNotExist then (l, none)
    else (l, some err.msg)
  | .ok file =>
    if file.length = 0 then (l, none)
    else
      match json.Unmarshal file l with
      | (l2, some err) => (l2, some err)
      | (l2, none) => (l2, none)

/-- `func (l *List) Save(filename string) error`. -/
def Save (os : OS) (json : JSON) (l : TodoList) (filename : String) : error :=
  match json.MarshalIndent l with
  | .error err => some err
  | .ok file =>
    match os.WriteFile filename file with
    | some err => some err
    | none => none

/-! ## The command line (`cmd/todo/main.go`) -/

def toDoFilename : String := ".todo.json"

/-- Go's `int` on a 64-bit platform: the integers from `-2^63` to `2^63 - 1`,
the values `flag.Int` can hold. -/
abbrev GoInt : Type := { v : Int // -9223372036854775808 ≤ v ∧ v ≤ 9223372036854775807 }

/-- The four flag variables of `main`. -/
structure Flags where
  add : String
  complete : GoInt
  del : GoInt
  list : Bool
deriving DecidableEq

/-- The flag variables as `flag.String`, `flag.Int` and `flag.Bool` declare
them: `""`, `0`, `0` and `false`. -/
def defaultFlags : Flags :=
  { add := "", complete := ⟨0, by decide⟩, del := ⟨0, by decide⟩, list := false }

/-- One flag of the command line with the value written for it; for `-complete`
and `-del` the integer that the written number denotes. -/
inductive Arg where
  | add (text : String)
  | complete (value : Int)
  | del (value : Int)
  | list (value : Bool)
deriving DecidableEq

/-- The error of the `flag` package for an integer flag whose value
`strconv.ParseInt` rejects with a range error (the value is shown as written,
here in decimal). -/
def flagRangeError (name : String) (value : Int) : String :=
  "invalid value \"" ++ Itoa value ++ "\" for flag -" ++ name ++ ": value out of range"

/-- `flag.Parse()` on one flag: the flag variable is set, or, for an integer
outside the range of `int`, the parse fails. -/
def setFlag (f : Flags) : Arg → Except String Flags
  | .add text => .ok { f with add := text }
  | .complete value =>
    if h : -9223372036854775808 ≤ value ∧ value ≤ 9223372036854775807 then
      .ok { f with complete := ⟨value, h⟩ }
    else .error (flagRangeError "complete" value)
  | .del value =>
    if h : -9223372036854775808 ≤ value ∧ value ≤ 9223372036854775807 then
      .ok { f with del := ⟨value, h⟩ }
    else .error (flagRangeError "del" value)
  | .list value => .ok { f with list := value }

/-- The flags of the command line processed in the order written, stopping at
the first one that fails. -/
def parseArgs (f : Flags) : List Arg → Except String Flags
  | [] => .ok f
  | a :: rest =>
    match setFlag f a with
    | .error msg => .error msg
    | .ok f2 => parseArgs f2 rest

/-- `flag.Parse()` for a command line made of the four declared flags, from
the flag variables at their defaults. -/
def flagParse (args : List Arg) : Except String Flags := parseArgs defaultFlags args

/-- What one run of the program is given besides its command line: the `os`
and `encoding/json` behaviour, the clock, the time layout, the usage text of
the `flag` package, and whether a write to standard error or standard output
succeeds. -/
structure World where
  os : OS
  json : JSON
  now : Time
  layout : Time → String
  usage : List String
  stderrOk : Bool
  stdoutOk : Bool

/-- What one run of the program does: its exit status, the lines written to
standard output and standard error, and the table printed (if any). -/
structure Outcome where
  status : Int
  stdout : List String
  stderr : List String
  table : Option Table
deriving DecidableEq

/-- The error exit repeated in `main`:
`_, err := fmt.Fprintln(os.Stderr, err.Error())`, then `return` when the write
failed (the process ends with status 0) and `os.Exit(1)` otherwise. -/
def exitWithError (w : World) (msg : String) : Outcome :=
  if w.stderrOk then { status := 1, stdout := [], stderr := [msg], table := none }
  else { status := 0, stdout := [], stderr := [], table := none }

/-- `func main()`.  The flag set is the default one (`flag.ExitOnError`): when
`flag.Parse()` fails, the package writes its error and the usage text to
standard error and ends the process with status 2, before `Load`. -/
def main (w : World) (args : List Arg) : Outcome :=
  match flagParse args with
  | .error msg =>
    { status := 2, stdout := [], stderr := if w.stderrOk then msg :: w.usage else [],
      table := none }
  | .ok f =>
    let todos : TodoList := []
    match Load w.os w.json todos toDoFilename with
    | (_, some err) => exitWithError w err
    | (todos, none) =>
      if f.add ≠ "" then
        let todos := AddTask w.now todos f.add
        match Save w.os w.json todos toDoFilename with
        | some err => exitWithError w err
        | none => { status := 0, stdout := [], stderr := [], table := none }
      else if f.complete.val > 0 then
        match CompleteTask w.now todos f.complete.val with
        | (_, some err) => exitWithError w err
        | (todos, none) =>
          match Save w.os w.json todos toDoFilename with
          | some err => exitWithError w err
          | none => { status := 0, stdout := [], stderr := [], table := none }
      else if f.del.val > 0 then
        match DeleteTask todos f.del.val with
        | (_, some err) => exitWithError w err
        | (todos, none) =>
          match Save w.os w.json todos toDoFilename with
          | some err => exitWithError w err
          | none => { status := 0, stdout := [], stderr := [], table := none }
      else if f.list then
        { status := 0,
          stdout :=
            if todos.length = 0 ∧ w.stdoutOk then ["You have no tasks to complete!"] else [],
          stderr := [],
          table := some (PrintTable w.layout todos) }
      else
        { status := 0,
          stdout := if w.stdoutOk then ["Invalid command!"] else [],
          stderr := [],
          table := none }

/-! ## Sample environments -/

/-- An `os` in which no file exists and every write succeeds. -/
def emptyDisk : OS :=
  { ReadFile := fun name =>
      .error { IsNotExist := true, msg := "open " ++ name ++ ": no such file or directory" },
    WriteFile := fun _ _ => none }

/-- An `os` in which every file exists with zero length. -/
def blankDisk : OS :=
  { ReadFile := fun _ => .ok [],
    WriteFile := fun _ _ => none }

/-- An `os` in which every file holds the two bytes `[]`. -/
def bracketDisk : OS :=
  { ReadFile := fun _ => .ok [91, 93],
    WriteFile := fun _ _ => none }

/-- A codec standing for a file whose content decodes to `stored`: every
decode yields `stored`, every encode the two bytes `[]`. -/
def fixedJSON (stored : TodoList) : JSON :=
  { MarshalIndent := fun _ => .ok [91, 93],
    Unmarshal := fun _ _ => (stored, none) }

def sampleTask : item :=
  { Task := "buy milk", Done := false, CreatedAt := ⟨1700000000, 5⟩, CompletedAt := Time.zero }

def sampleWorld (os : OS) (stored : TodoList) : World :=
  { os := os, json := fixedJSON stored, now := ⟨1700000100, 0⟩, layout := fun _ => "",
    usage := ["Usage of todo:"], stderrOk := true, stdoutOk := true }

/-! ## Theorems -/

/-- A `range` loop that appends the elements satisfying `q` computes
`List.filter q`, after whatever was accumulated before. -/
theorem foldl_append_if_eq_filter (q : item → Bool) (l acc : List item) :
    l.foldl (fun acc x => if q x then acc ++ [x] else acc) acc = acc ++ l.filter q := by
  induction l generalizing acc with
  | nil => simp
  | cons a t ih =>
    rw [List.foldl_cons, ih]
    cases h : q a <;> simp [List.filter_cons, h]

theorem ListCompletedTasks_eq_filter (l : TodoList) :
    ListCompletedTasks l = l.filter (fun it => it.Done) := by
  have h := foldl_append_if_eq_filter (fun it => it.Done) l []
  simpa [ListCompletedTasks] using h

theorem ListPendingTasks_eq_filter (l : TodoList) :
    ListPendingTasks l = l.filter (fun it => !it.Done) := by
  have h := foldl_append_if_eq_filter (fun it => !it.Done) l []
  simpa [ListPendingTasks] using h

/-- The counting loop adds the number of pending items to its start value. -/
theorem foldl_count_pending (l : TodoList) (c : Int) :
    l.foldl (fun count item => if !item.Done then count + 1 else count) c
      = c + ((l.filter (fun it => !it.Done)).length : Int) := by
  induction l generalizing c with
  | nil => simp
  | cons a t ih =>
    rw [List.foldl_cons, ih]
    cases h : a.Done <;> simp [List.filter_cons, h]
    omega

theorem CountPendingTasks_eq_length_sub (l : TodoList) :
    CountPendingTasks l = (l.length : Int) - ((ListCompletedTasks l).length : Int) := by
  have hc : CountPendingTasks l = ((l.filter (fun it => !it.Done)).length : Int) := by
    unfold CountPendingTasks
    rw [foldl_count_pending]
    simp
  have hsplit := List.length_eq_length_filter_add (l := l) (fun it => it.Done)
  rw [hc, ListCompletedTasks_eq_filter]
  omega

/-- A `range` loop that appends `g x` for every element computes `List.map g`. -/
theorem foldl_append_map {α β : Type} (g : α → β) (l : List α) (acc : List β) :
    l.foldl (fun acc x => acc ++ [g x]) acc = acc ++ l.map g := by
  induction l generalizing acc with
  | nil => simp
  | cons a t ih =>
    rw [List.foldl_cons, ih]
    simp

/-- The body of the table has one row per task, the row of `range` position
`n` being `tableRow layout n item`. -/
theorem PrintTable_body_getElem? (layout : Time → String) (l : TodoList) (n : Nat) :
    (PrintTable layout l).Body[n]? = (l[n]?).map (fun it => tableRow layout (n : Int) it) := by
  unfold PrintTable
  simp only [foldl_append_map (fun x : Nat × item => tableRow layout (x.1 : Int) x.2),
    List.nil_append, List.getElem?_map, List.getElem?_enum, Option.map_map]
  rfl

/-- For every task, the number cell of its row shows its 1-based position plus
one. -/
theorem numberCell_PrintTable (layout : Time → String) (l : TodoList) (p : Int)
    (h1 : 1 ≤ p) (h2 : p ≤ (l.length : Int)) :
    numberCell (PrintTable layout l) p = some (yellow (Itoa (p + 1))) := by
  have hlt : (p - 1).toNat < l.length := by omega
  unfold numberCell
  rw [if_neg (by omega), PrintTable_body_getElem?, List.getElem?_eq_getElem hlt]
  have hcast : (((p - 1).toNat : Nat) : Int) + 1 + 1 = p + 1 := by omega
  simp only [Option.map_some', tableRow, hcast]

/-- When `flag.Parse()` fails the run ends with status 2, the error and the
usage text on standard error (if it can be written), and nothing else. -/
theorem main_of_flag_error (w : World) (args : List Arg) (msg : String)
    (hparse : flagParse args = .error msg) :
    main w args =
      { status := 2, stdout := [], stderr := if w.stderrOk then msg :: w.usage else [],
        table := none } := by
  simp [main, hparse]

/-- Flags that parse to a complete request (no `-add` text, `-complete` above
0) or a delete request (in addition `-complete` not above 0, `-del` above 0)
with a position beyond the loaded list end with `invalid index` on standard
error and status 1. -/
theorem main_of_flags_beyond_length (w : World) (args : List Arg) (f : Flags) (l : TodoList)
    (hparse : flagParse args = .ok f)
    (hload : Load w.os w.json [] toDoFilename = (l, none))
    (hreport : w.stderrOk = true) (hadd : f.add = "")
    (hreq : f.complete.val > (l.length : Int) ∨
            (f.complete.val ≤ 0 ∧ f.del.val > (l.length : Int))) :
    (main w args).status = 1 ∧ (main w args).stderr = ["invalid index"] := by
  rcases hreq with hc | ⟨hc, hd⟩
  · have hpos : f.complete.val > 0 := by omega
    have hbad : f.complete.val ≤ 0 ∨ f.complete.val > (l.length : Int) := Or.inr hc
    simp [main, hparse, hload, hadd, hpos, CompleteTask, hbad, exitWithError, hreport]
  · have hnc : ¬ f.complete.val > 0 := by omega
    have hpos : f.del.val > 0 := by omega
    have hbad : f.del.val ≤ 0 ∨ f.del.val > (l.length : Int) := Or.inr hd
    simp [main, hparse, hload, hadd, hnc, hpos, DeleteTask, hbad, exitWithError, hreport]

/-- A position `≤ 0` is not dispatched as a complete or delete request: once
the list is loaded, with no `-add` text and both positions `≤ 0`, the run ends
with exit status 0 and nothing on standard error. -/
theorem main_nonpositive_positions_not_dispatched (w : World) (args : List Arg) (f : Flags)
    (l : TodoList) (hparse : flagParse args = .ok f)
    (hload : Load w.os w.json [] toDoFilename = (l, none)) (hadd : f.add = "")
    (hc : f.complete.val ≤ 0) (hd : f.del.val ≤ 0) :
    (main w args).status = 0 ∧ (main w args).stderr = [] := by
  have hnc : ¬ f.complete.val > 0 := by omega
  have hnd : ¬ f.del.val > 0 := by omega
  cases hlist : f.list <;> simp [main, hparse, hload, hadd, hnc, hnd, hlist]

/-- The command line `-complete p` parses to the flags with that position when
`p` is an `int`, and fails otherwise. -/
theorem flagParse_complete (p : Int) :
    (∃ h, flagParse [.complete p] = .ok { defaultFlags with complete := ⟨p, h⟩ }) ∨
    flagParse [.complete p] = .error (flagRangeError "complete" p) := by
  by_cases h : -9223372036854775808 ≤ p ∧ p ≤ 9223372036854775807
  · exact Or.inl ⟨h, by simp [flagParse, parseArgs, setFlag, h]⟩
  · exact Or.inr (by simp [flagParse, parseArgs, setFlag, h])

/-- The command line `-del p` parses to the flags with that position when `p`
is an `int`, and fails otherwise. -/
theorem flagParse_del (p : Int) :
    (∃ h, flagParse [.del p] = .ok { defaultFlags with del := ⟨p, h⟩ }) ∨
    flagParse [.del p] = .error (flagRangeError "del" p) := by
  by_cases h : -9223372036854775808 ≤ p ∧ p ≤ 9223372036854775807
  · exact Or.inl ⟨h, by simp [flagParse, parseArgs, setFlag, h]⟩
  · exact Or.inr (by simp [flagParse, parseArgs, setFlag, h])

/-- `Save` hands the encoding of the whole list to `WriteFile` under the given
name, and `Load` decodes what `ReadFile` returns for that name into the list
it is given: when the encoding is written without error and read back, `Load`
into an empty list returns whatever the decoder makes of that encoding. -/
theorem Save_then_Load (os : OS) (json : JSON) (l l2 : TodoList) (data : List UInt8)
    (filename : String)
    (hm : json.MarshalIndent l = .ok data) (hne : data ≠ [])
    (hw : os.WriteFile filename data = none) (hr : os.ReadFile filename = .ok data)
    (hu : json.Unmarshal data [] = (l2, none)) :
    Save os json l filename = none ∧ Load os json [] filename = (l2, none) := by
  constructor
  · simp [Save, hm, hw]
  · have hlen : ¬ data.length = 0 := by
      intro h0
      exact hne (List.length_eq_zero.mp h0)
    simp [Load, hr, hlen, hu]

theorem taskAt_of_pos (l : TodoList) (p : Int) (hp : 1 ≤ p) :
    taskAt l p = l[(p - 1).toNat]? := by
  unfold taskAt
  rw [if_neg (by omega)]

/-- C1: `CompleteTask(p)` and `DeleteTask(p)` each return an error exactly when
`p ≤ 0` or `p > len(l)`, and return `nil` exactly when `1 ≤ p ≤ len(l)`. -/
theorem CompleteTask_DeleteTask_error_iff (now : Time) (l : TodoList) (p : Int) :
    ((CompleteTask now l p).2 ≠ none ↔ (p ≤ 0 ∨ p > (l.length : Int))) ∧
    ((DeleteTask l p).2 ≠ none ↔ (p ≤ 0 ∨ p > (l.length : Int))) ∧
    ((CompleteTask now l p).2 = none ↔ (1 ≤ p ∧ p ≤ (l.length : Int))) ∧
    ((DeleteTask l p).2 = none ↔ (1 ≤ p ∧ p ≤ (l.length : Int))) := by
  unfold CompleteTask DeleteTask
  by_cases h : p ≤ 0 ∨ p > (l.length : Int)
  · simp only [if_pos h]
    refine ⟨?_, ?_, ?_, ?_⟩ <;> simp <;> omega
  · simp only [if_neg h]
    refine ⟨?_, ?_, ?_, ?_⟩ <;> simp <;> omega

/-- C2: a successful `DeleteTask(k)` on a list of length `n` (`1 ≤ k ≤ n`)
returns `nil` and leaves `l` with exactly its `k`-th element removed: the
length is `n - 1`, positions `1..k-1` hold the same tasks as before, and every
position `p ≥ k` holds the task formerly at `p + 1`. -/
theorem DeleteTask_removes_kth (l : TodoList) (k : Int)
    (h1 : 1 ≤ k) (h2 : k ≤ (l.length : Int)) :
    (DeleteTask l k).2 = none ∧
    (DeleteTask l k).1 = l.eraseIdx (k - 1).toNat ∧
    ((DeleteTask l k).1.length : Int) = (l.length : Int) - 1 ∧
    (∀ p : Int, 1 ≤ p → p < k → taskAt (DeleteTask l k).1 p = taskAt l p) ∧
    (∀ p : Int, k ≤ p → taskAt (DeleteTask l k).1 p = taskAt l (p + 1)) := by
  have hguard : ¬ (k ≤ 0 ∨ k > (l.length : Int)) := by omega
  have hk : k.toNat = (k - 1).toNat + 1 := by omega
  have hres : (DeleteTask l k).1 = l.eraseIdx (k - 1).toNat := by
    unfold DeleteTask
    rw [if_neg hguard, List.eraseIdx_eq_take_drop_succ, hk]
  have hlt : (k - 1).toNat < l.length := by omega
  refine ⟨?_, hres, ?_, ?_, ?_⟩
  · unfold DeleteTask
    rw [if_neg hguard]
  · rw [hres, List.length_eraseIdx, if_pos hlt]
    omega
  · intro p hp1 hpk
    rw [hres, taskAt_of_pos _ p hp1, taskAt_of_pos _ p hp1, List.getElem?_eraseIdx,
      if_pos (by omega)]
  · intro p hkp
    have hp1 : 1 ≤ p := by omega
    rw [hres, taskAt_of_pos _ p hp1, taskAt_of_pos _ (p + 1) (by omega),
      List.getElem?_eraseIdx, if_neg (by omega)]
    congr 1
    omega

/-- Deleting position 2 of three tasks leaves the first and the third. -/
theorem DeleteTask_removes_kth_witness :
    (DeleteTask [⟨"a", false, ⟨1, 0⟩, Time.zero⟩, ⟨"b", true, ⟨2, 0⟩, ⟨5, 0⟩⟩,
        ⟨"c", false, ⟨3, 0⟩, Time.zero⟩] 2).1
      = [⟨"a", false, ⟨1, 0⟩, Time.zero⟩, ⟨"c", false, ⟨3, 0⟩, Time.zero⟩] :=
  ((DeleteTask_removes_kth [⟨"a", false, ⟨1, 0⟩, Time.zero⟩, ⟨"b", true, ⟨2, 0⟩, ⟨5, 0⟩⟩,
        ⟨"c", false, ⟨3, 0⟩, Time.zero⟩] 2 (by decide) (by decide)).2.1).trans (by decide)

/-- C3: a successful `CompleteTask(p)` at time `now` (`1 ≤ p ≤ len(l)`) returns
`nil`, keeps the length, leaves the task at every other position as it was, and
at position `p` keeps `Task` and `CreatedAt` while setting `Done = true` and
`CompletedAt = now`. -/
theorem CompleteTask_marks_done (now : Time) (l : TodoList) (p : Int)
    (h1 : 1 ≤ p) (h2 : p ≤ (l.length : Int)) :
    (CompleteTask now l p).2 = none ∧
    (CompleteTask now l p).1.length = l.length ∧
    (∀ q : Int, q ≠ p → taskAt (CompleteTask now l p).1 q = taskAt l q) ∧
    (∃ old : item, taskAt l p = some old ∧
      taskAt (CompleteTask now l p).1 p =
        some { Task := old.Task, Done := true, CreatedAt := old.CreatedAt,
               CompletedAt := now }) := by
  have hguard : ¬ (p ≤ 0 ∨ p > (l.length : Int)) := by omega
  have hres : (CompleteTask now l p).1 =
      List.modify (fun it => { it with Done := true, CompletedAt := now }) (p - 1).toNat l := by
    unfold CompleteTask
    rw [if_neg hguard]
  have hlt : (p - 1).toNat < l.length := by omega
  refine ⟨?_, ?_, ?_, ?_⟩
  · unfold CompleteTask
    rw [if_neg hguard]
  · rw [hres, List.length_modify]
  · intro q hq
    rw [hres]
    unfold taskAt
    by_cases hq0 : q ≤ 0
    · rw [if_pos hq0, if_pos hq0]
    · rw [if_neg hq0, if_neg hq0, List.getElem?_modify]
      have hne : ¬ ((p - 1).toNat = (q - 1).toNat) := by omega
      simp only [if_neg hne]
      cases l[(q - 1).toNat]? <;> rfl
  · refine ⟨l[(p - 1).toNat], ?_, ?_⟩
    · rw [taskAt_of_pos _ p h1, List.getElem?_eq_getElem hlt]
    · rw [hres, taskAt_of_pos _ p h1, List.getElem?_modify, List.getElem?_eq_getElem hlt]
      simp

/-- Completing position 2 of two tasks returns `nil`. -/
theorem CompleteTask_marks_done_witness :
    (CompleteTask ⟨9, 7⟩ [⟨"a", false, ⟨1, 0⟩, Time.zero⟩, ⟨"b", false, ⟨2, 0⟩, Time.zero⟩] 2).2
      = none :=
  (CompleteTask_marks_done ⟨9, 7⟩
    [⟨"a", false, ⟨1, 0⟩, Time.zero⟩, ⟨"b", false, ⟨2, 0⟩, Time.zero⟩] 2
    (by decide) (by decide)).1

/-- C4: `AddTask(d)` at time `now` has no failure path and yields `l` with one
task appended: the length grows by exactly one, every earlier position holds
the task it held before, and the new last position holds the task with
description `d` (any text, the empty string included), `Done = false`,
`CreatedAt = now` and `CompletedAt` the zero time. -/
theorem AddTask_appends_pending (now : Time) (l : TodoList) (d : String) :
    AddTask now l d =
      l ++ [{ Task := d, Done := false, CreatedAt := now, CompletedAt := Time.zero }] ∧
    (AddTask now l d).length = l.length + 1 ∧
    (∀ p : Int, p ≤ (l.length : Int) → taskAt (AddTask now l d) p = taskAt l p) ∧
    taskAt (AddTask now l d) ((AddTask now l d).length : Int) =
      some { Task := d, Done := false, CreatedAt := now, CompletedAt := Time.zero } := by
  refine ⟨rfl, ?_, ?_, ?_⟩
  · simp [AddTask]
  · intro p hp
    unfold taskAt
    by_cases hp0 : p ≤ 0
    · rw [if_pos hp0, if_pos hp0]
    · rw [if_neg hp0, if_neg hp0]
      unfold AddTask
      rw [List.getElem?_append, if_pos (by omega)]
  · have hlen : (AddTask now l d).length = l.length + 1 := by simp [AddTask]
    rw [hlen, taskAt_of_pos _ _ (by omega)]
    have hidx : (((l.length + 1 : Nat) : Int) - 1).toNat = l.length := by omega
    rw [hidx]
    simp [AddTask]

/-- C7: `ListCompletedTasks` is the order-preserving filter of `l` by
`Done == true` and `ListPendingTasks` the order-preserving filter by
`Done == false`; both are subsequences of `l`, every task of `l` is in exactly
one of them, and every task occurs in `l` as often as in the two results
together. -/
theorem ListCompleted_ListPending_partition (l : TodoList) :
    ListCompletedTasks l = l.filter (fun it => it.Done) ∧
    ListPendingTasks l = l.filter (fun it => !it.Done) ∧
    (ListCompletedTasks l).Sublist l ∧
    (ListPendingTasks l).Sublist l ∧
    (∀ x ∈ l, (x ∈ ListCompletedTasks l ∧ x ∉ ListPendingTasks l) ∨
              (x ∉ ListCompletedTasks l ∧ x ∈ ListPendingTasks l)) ∧
    (∀ x : item, l.count x = (ListCompletedTasks l).count x + (ListPendingTasks l).count x) := by
  rw [ListCompletedTasks_eq_filter, ListPendingTasks_eq_filter]
  refine ⟨rfl, rfl, List.filter_sublist l, List.filter_sublist l, ?_, ?_⟩
  · intro x hx
    cases h : x.Done
    · right
      simp [List.mem_filter, hx, h]
    · left
      simp [List.mem_filter, hx, h]
  · intro x
    induction l with
    | nil => simp
    | cons a t ih =>
      cases h : a.Done <;> simp [List.filter_cons, h, List.count_cons, ih] <;> omega

/-- C8: in every state reached from the empty list by `AddTask`, `CompleteTask`
and `DeleteTask` operations, `CountPendingTasks()` equals
`len(ListTasks()) - len(ListCompletedTasks())`. -/
theorem CountPendingTasks_reachable (ops : List Op) :
    CountPendingTasks (runOps ops) =
      ((ListTasks (runOps ops)).length : Int) - ((ListCompletedTasks (runOps ops)).length : Int) :=
  CountPendingTasks_eq_length_sub (runOps ops)

/-- C6 as stated fails: with a task already in memory, `Load` of a file that
does not exist, and `Load` of a zero-length file, both return `nil` and leave
that task in the list, so the list is not empty afterwards. -/
theorem Load_absent_file_keeps_tasks :
    Load emptyDisk (fixedJSON []) [sampleTask] toDoFilename = ([sampleTask], none) ∧
    Load blankDisk (fixedJSON []) [sampleTask] toDoFilename = ([sampleTask], none) ∧
    (Load emptyDisk (fixedJSON []) [sampleTask] toDoFilename).1 ≠ [] ∧
    (Load blankDisk (fixedJSON []) [sampleTask] toDoFilename).1 ≠ [] := by
  decide

/-- C6 (amended): for every in-memory list, `Load` of a path whose file does
not exist, or whose file exists with zero length, returns `nil` and leaves the
list exactly as it was; in particular a list that was empty, such as the fresh
list of `main`, is empty afterwards. -/
theorem Load_absent_or_empty_file (os : OS) (json : JSON) (l : TodoList) (filename : String)
    (h : (∃ err : PathError, os.ReadFile filename = .error err ∧ err.IsNotExist = true) ∨
         os.ReadFile filename = .ok []) :
    Load os json l filename = (l, none) ∧
    (l = [] → (Load os json l filename).1 = []) := by
  have hload : Load os json l filename = (l, none) := by
    unfold Load
    rcases h with ⟨err, hread, hne⟩ | hread
    · rw [hread]
      simp [hne]
    · rw [hread]
      simp
  refine ⟨hload, ?_⟩
  intro hl
  rw [hload]
  exact hl

/-- A missing file leaves an empty list empty, and a zero-length file leaves
two tasks in place. -/
theorem Load_absent_or_empty_file_witness :
    Load emptyDisk (fixedJSON [sampleTask]) [] toDoFilename = ([], none) ∧
    Load blankDisk (fixedJSON [sampleTask]) [sampleTask, sampleTask] toDoFilename
      = ([sampleTask, sampleTask], none) :=
  ⟨(Load_absent_or_empty_file emptyDisk (fixedJSON [sampleTask]) [] toDoFilename
      (Or.inl ⟨_, rfl, rfl⟩)).1,
   (Load_absent_or_empty_file blankDisk (fixedJSON [sampleTask]) [sampleTask, sampleTask]
      toDoFilename (Or.inr rfl)).1⟩

/-- C9 as stated fails: with one task loaded, `-complete -1`, `-complete 0` and
`-del -1` (positions `≤ 0`, out of range) end with exit status 0, nothing on
standard error and `Invalid command!` on standard output. -/
theorem main_nonpositive_position_exits_zero :
    Load bracketDisk (fixedJSON [sampleTask]) [] toDoFilename = ([sampleTask], none) ∧
    main (sampleWorld bracketDisk [sampleTask]) [.complete (-1)]
      = { status := 0, stdout := ["Invalid command!"], stderr := [], table := none } ∧
    main (sampleWorld bracketDisk [sampleTask]) [.complete 0]
      = { status := 0, stdout := ["Invalid command!"], stderr := [], table := none } ∧
    main (sampleWorld bracketDisk [sampleTask]) [.del (-1)]
      = { status := 0, stdout := ["Invalid command!"], stderr := [], table := none } := by
  decide

/-- C9 (amended): let `l` be the list that `main` loads and let writes to
standard error succeed.  Every complete request `-complete p` and every delete
request `-del p` whose integer position `p` is greater than `len(l)` ends with
a non-zero exit status and the error reported on standard error; so does every
command line whose flags parse to such a request (no `-add` text and
`-complete` above `len(l)`, or `-complete` not above 0 and `-del` above
`len(l)`). -/
theorem main_position_beyond_length (w : World) (l : TodoList)
    (hload : Load w.os w.json [] toDoFilename = (l, none))
    (hreport : w.stderrOk = true) :
    (∀ p : Int, p > (l.length : Int) →
      ((main w [.complete p]).status ≠ 0 ∧ (main w [.complete p]).stderr ≠ []) ∧
      ((main w [.del p]).status ≠ 0 ∧ (main w [.del p]).stderr ≠ [])) ∧
    (∀ (args : List Arg) (f : Flags), flagParse args = .ok f → f.add = "" →
      (f.complete.val > (l.length : Int) ∨
        (f.complete.val ≤ 0 ∧ f.del.val > (l.length : Int))) →
      (main w args).status ≠ 0 ∧ (main w args).stderr ≠ []) := by
  have hgen : ∀ (args : List Arg) (f : Flags), flagParse args = .ok f → f.add = "" →
      (f.complete.val > (l.length : Int) ∨
        (f.complete.val ≤ 0 ∧ f.del.val > (l.length : Int))) →
      (main w args).status ≠ 0 ∧ (main w args).stderr ≠ [] := by
    intro args f hparse hadd hreq
    obtain ⟨hs, he⟩ := main_of_flags_beyond_length w args f l hparse hload hreport hadd hreq
    rw [hs, he]
    exact ⟨by decide, by simp⟩
  have hfail : ∀ (args : List Arg) (msg : String), flagParse args = .error msg →
      (main w args).status ≠ 0 ∧ (main w args).stderr ≠ [] := by
    intro args msg hparse
    rw [main_of_flag_error w args msg hparse]
    simp [hreport]
  refine ⟨?_, hgen⟩
  intro p hp
  constructor
  · rcases flagParse_complete p with ⟨h, hparse⟩ | hparse
    · exact hgen _ _ hparse rfl (Or.inl hp)
    · exact hfail _ _ hparse
  · rcases flagParse_del p with ⟨h, hparse⟩ | hparse
    · have hzero : defaultFlags.complete.val ≤ 0 := by decide
      exact hgen _ _ hparse rfl (Or.inr ⟨hzero, hp⟩)
    · exact hfail _ _ hparse

/-- With one task loaded, `-complete 2` and `-complete 9223372036854775808` both
end with a non-zero status and a report on standard error. -/
theorem main_position_beyond_length_witness :
    ((main (sampleWorld bracketDisk [sampleTask]) [.complete 2]).status ≠ 0 ∧
      (main (sampleWorld bracketDisk [sampleTask]) [.complete 2]).stderr ≠ []) ∧
    ((main (sampleWorld bracketDisk [sampleTask]) [.complete 9223372036854775808]).status ≠ 0 ∧
      (main (sampleWorld bracketDisk [sampleTask]) [.complete 9223372036854775808]).stderr
        ≠ []) :=
  ⟨((main_position_beyond_length (sampleWorld bracketDisk [sampleTask]) [sampleTask]
      (by decide) rfl).1 2 (by decide)).1,
   ((main_position_beyond_length (sampleWorld bracketDisk [sampleTask]) [sampleTask]
      (by decide) rfl).1 9223372036854775808 (by decide)).1⟩

/-- C10: on the list holding one task, the task that `CompleteTask` and
`DeleteTask` address as position 1 (position 2 is an invalid index for both)
gets the number cell `2` from `PrintTable`, not `1`. -/
theorem PrintTable_number_cell_single_task (layout : Time → String) :
    taskAt [sampleTask] 1 = some sampleTask ∧
    numberCell (PrintTable layout [sampleTask]) 1 = some (yellow "2") ∧
    numberCell (PrintTable layout [sampleTask]) 1 ≠ some (yellow "1") ∧
    (CompleteTask ⟨0, 0⟩ [sampleTask] 2).2 = some "invalid index" ∧
    (DeleteTask [sampleTask] 2).2 = some "invalid index" := by
  have hcell : numberCell (PrintTable layout [sampleTask]) 1 = some (yellow "2") :=
    numberCell_PrintTable layout [sampleTask] 1 (by decide) (by decide)
  refine ⟨by decide, hcell, ?_, by decide, by decide⟩
  rw [hcell]
  decide

end TodoCli
